import Mathlib

/-!
Verification of the Roobar3000 real-time playback pipeline against its
specification.  The Rust sources under `rust-core/src` are shallowly
embedded: pure functions become Lean functions, stateful methods become
explicit state passing, `f32`/`f64` arithmetic is modelled over `ℚ`
(with `Rat.sqrt` standing for `f64::sqrt`), machine integers over `ℕ`/`ℤ`,
and fallible Rust code returns `Except`/`Option`.
-/

namespace Roobar

/-! ## audio/format.rs -/

/-- Sample encodings, from `audio/format.rs` (`enum SampleFormat`). -/
inductive SampleFormat where
  | U8
  | S16
  | S24
  | S32
  | F32
  | F64
deriving DecidableEq

/-- `SampleFormat::bytes_per_sample`. -/
def SampleFormat.bytes_per_sample : SampleFormat → ℕ
  | .U8 => 1
  | .S16 => 2
  | .S24 => 3
  | .S32 => 4
  | .F32 => 4
  | .F64 => 8

/-- `SampleFormat::is_float`. -/
def SampleFormat.is_float (f : SampleFormat) : Bool :=
  match f with
  | .F32 => true
  | .F64 => true
  | _ => false

/-- `SampleFormat::is_integer` (`!self.is_float()`). -/
def SampleFormat.is_integer (f : SampleFormat) : Bool :=
  !f.is_float

/-- `struct AudioFormat` from `audio/format.rs`. -/
structure AudioFormat where
  sample_rate : ℕ
  channels : ℕ
  sample_format : SampleFormat
deriving DecidableEq

/-- `AudioFormat::bytes_per_frame`. -/
def AudioFormat.bytes_per_frame (f : AudioFormat) : ℕ :=
  f.channels * f.sample_format.bytes_per_sample

/-- `AudioFormat::default` (44100 Hz, 2 ch, S16). -/
def AudioFormat.default : AudioFormat :=
  ⟨44100, 2, .S16⟩

/-! ## audio/buffer_pool.rs — AudioRingBuffer (the ByteRing)

The Rust ring is a `VecDeque<u8>` with an explicit capacity; bytes are
modelled as `ℕ`.  `write` pushes bytes at the back while the deque is
below capacity and stops at the first byte that does not fit; `read`
pops bytes from the front into the caller's buffer, stopping when the
deque is empty.  Both return the number of bytes transferred; here the
read additionally returns the transferred bytes themselves (in Rust
they land in the caller's slice). -/

structure AudioRingBuffer where
  buffer : List ℕ
  capacity : ℕ
deriving DecidableEq

/-- `AudioRingBuffer::new`. -/
def AudioRingBuffer.new (capacity : ℕ) : AudioRingBuffer :=
  ⟨[], capacity⟩

/-- `AudioRingBuffer::write` (`buffer_pool.rs` lines 107–118): the
byte-by-byte copy loop, breaking when the deque reaches capacity. -/
def AudioRingBuffer.write (r : AudioRingBuffer) (data : List ℕ) : ℕ × AudioRingBuffer :=
  match data with
  | [] => (0, r)
  | b :: rest =>
    if r.buffer.length < r.capacity then
      let out := AudioRingBuffer.write ⟨r.buffer ++ [b], r.capacity⟩ rest
      (out.1 + 1, out.2)
    else
      (0, r)

/-- `AudioRingBuffer::read` (`buffer_pool.rs` lines 120–131): pop up to
`n` bytes (the length of the caller's slice) from the front. -/
def AudioRingBuffer.read (r : AudioRingBuffer) (n : ℕ) : List ℕ × AudioRingBuffer :=
  match n, r.buffer with
  | 0, _ => ([], r)
  | _ + 1, [] => ([], r)
  | m + 1, b :: rest =>
    let out := AudioRingBuffer.read ⟨rest, r.capacity⟩ m
    (b :: out.1, out.2)

/-- `AudioRingBuffer::len`. -/
def AudioRingBuffer.len (r : AudioRingBuffer) : ℕ :=
  r.buffer.length

/-- `AudioRingBuffer::available`. -/
def AudioRingBuffer.available (r : AudioRingBuffer) : ℕ :=
  r.capacity - r.buffer.length

/-- `AudioRingBuffer::is_empty`. -/
def AudioRingBuffer.is_empty (r : AudioRingBuffer) : Bool :=
  r.buffer.isEmpty

/-- `AudioRingBuffer::clear`. -/
def AudioRingBuffer.clear (r : AudioRingBuffer) : AudioRingBuffer :=
  ⟨[], r.capacity⟩

/-- One call of the ByteRing API, for reasoning about interleaved
call sequences: a write submits a byte list, a read supplies the length
of the destination slice. -/
inductive RingOp where
  | write (data : List ℕ)
  | read (n : ℕ)

/-- Run a sequence of interleaved write/read calls from a given ring
state.  Returns (bytes accepted by the writes, in order; bytes returned
by the reads, in order; final ring).  A write accepts exactly the bytes
the copy loop pushed, i.e. `data.take k` where `k` is its return value. -/
def runOps (r : AudioRingBuffer) : List RingOp → List ℕ × List ℕ × AudioRingBuffer
  | [] => ([], [], r)
  | RingOp.write data :: ops =>
    let out := r.write data
    let rest := runOps out.2 ops
    (data.take out.1 ++ rest.1, rest.2.1, rest.2.2)
  | RingOp.read n :: ops =>
    let out := r.read n
    let rest := runOps out.2 ops
    (rest.1, out.1 ++ rest.2.1, rest.2.2)

/-- Concatenation of every byte submitted to (passed into) the write
calls of a sequence, accepted or not. -/
def submittedBytes : List RingOp → List ℕ
  | [] => []
  | RingOp.write data :: ops => data ++ submittedBytes ops
  | RingOp.read _ :: ops => submittedBytes ops

/-! ## audio/buffer_pool.rs — AudioBuffer and BufferPool -/

/-- `struct AudioBuffer`. -/
structure AudioBuffer where
  data : List ℕ
  format : AudioFormat
  frames : ℕ
deriving DecidableEq

/-- `AudioBuffer::new`: a zero-filled vector of
`format.bytes_per_frame() * frames` bytes. -/
def AudioBuffer.new (format : AudioFormat) (frames : ℕ) : AudioBuffer :=
  ⟨List.replicate (format.bytes_per_frame * frames) 0, format, frames⟩

/-- `AudioBuffer::capacity` (`data.len()`). -/
def AudioBuffer.capacity (b : AudioBuffer) : ℕ :=
  b.data.length

/-- `struct BufferPool`: `buffers` is the backing `Vec<AudioBuffer>`,
`free_buffers` the stack of free indices into it (Rust `Vec::push`
appends, `Vec::pop` takes from the back). -/
structure BufferPool where
  buffers : List AudioBuffer
  free_buffers : List ℕ
  format : AudioFormat
  buffer_size_frames : ℕ
deriving DecidableEq

/-- `BufferPool::new`: `pool_size` fresh buffers, every index free. -/
def BufferPool.new (format : AudioFormat) (buffer_size_frames pool_size : ℕ) : BufferPool :=
  ⟨List.replicate pool_size (AudioBuffer.new format buffer_size_frames),
   List.range pool_size, format, buffer_size_frames⟩

/-- `BufferPool::acquire` (`buffer_pool.rs` lines 68–75): pop a free
index and `mem::replace` the slot with a fresh zero-frame placeholder
(`AudioBuffer::new(self.format, 0)`).  An out-of-range index would be a
Rust panic; it is modelled as `none` and is unreachable for pools built
from `new`/`acquire`/`release`. -/
def BufferPool.acquire (p : BufferPool) : Option (AudioBuffer × BufferPool) :=
  match p.free_buffers.getLast? with
  | none => none
  | some i =>
    match p.buffers[i]? with
    | none => none
    | some buf =>
      some (buf, ⟨p.buffers.set i (AudioBuffer.new p.format 0),
                  p.free_buffers.dropLast, p.format, p.buffer_size_frames⟩)

/-- `BufferPool::release` (`buffer_pool.rs` lines 77–83): if the
buffer's frame count matches the pool's, zero it and push it as a NEW
entry at the end of `buffers` (the placeholder left by `acquire` stays
in place); otherwise drop it. -/
def BufferPool.release (p : BufferPool) (buffer : AudioBuffer) : BufferPool :=
  if buffer.frames = p.buffer_size_frames then
    ⟨p.buffers ++ [⟨List.replicate buffer.data.length 0, buffer.format, buffer.frames⟩],
     p.free_buffers ++ [p.buffers.length], p.format, p.buffer_size_frames⟩
  else p

/-- `BufferPool::available_count`. -/
def BufferPool.available_count (p : BufferPool) : ℕ :=
  p.free_buffers.length

/-- `BufferPool::total_count`. -/
def BufferPool.total_count (p : BufferPool) : ℕ :=
  p.buffers.length

/-- Well-formedness of a pool state: every free index addresses a slot
of the backing vector whose buffer has the pool's frame count.  This
holds for `BufferPool::new` and is preserved by `acquire`/`release`. -/
def BufferPool.WF (p : BufferPool) : Prop :=
  ∀ i ∈ p.free_buffers,
    i < p.buffers.length ∧
      ((p.buffers[i]?).getD (AudioBuffer.new p.format 0)).frames = p.buffer_size_frames

instance (p : BufferPool) : Decidable p.WF := by
  unfold BufferPool.WF
  infer_instance

/-! ## audio/clock.rs — AudioClock

Wall-clock `Instant`s are modelled as explicit `ℚ` timestamps passed to
the operations; `Instant` subtraction (`duration_since`) saturates at
zero, hence the `max 0`.  `f64` arithmetic is carried out over `ℚ`,
`f64::sqrt` is modelled by `Rat.sqrt` (exact at `0`, the only value the
claims touch), and `as u64` casts by `Int.toNat ∘ Rat.floor`. -/

/-- `struct ClockStats` (`buffer_level` is hard-coded to `0.0` by
`get_stats`). -/
structure ClockStats where
  drift_ppm : ℚ
  jitter_ns : ℕ
  buffer_level : ℚ
deriving DecidableEq

/-- `struct AudioClock`. -/
structure AudioClock where
  format : AudioFormat
  start_time : Option ℚ
  frames_played : ℕ
  last_update : Option ℚ
  drift_accumulator : ℚ
  jitter_samples : List ℕ
deriving DecidableEq

/-- `AudioClock::new`. -/
def AudioClock.new (format : AudioFormat) : AudioClock :=
  ⟨format, none, 0, none, 0, []⟩

/-- `AudioClock::start` (`clock.rs` lines 32–38), at wall time `now`. -/
def AudioClock.start (c : AudioClock) (now : ℚ) : AudioClock :=
  ⟨c.format, some now, 0, some now, 0, []⟩

/-- `AudioClock::stop`. -/
def AudioClock.stop (c : AudioClock) : AudioClock :=
  { c with start_time := none, last_update := none }

/-- `AudioClock::is_running`. -/
def AudioClock.is_running (c : AudioClock) : Bool :=
  c.start_time.isSome

/-- `AudioClock::update` (`clock.rs` lines 49–75), at wall time `now`:
compare `frames` against the frames expected from the elapsed time since
the previous update, accumulate signed drift, push `abs_diff` onto the
jitter window (trimmed to 100 entries), advance `frames_played`. -/
def AudioClock.update (c : AudioClock) (now : ℚ) (frames : ℕ) : AudioClock :=
  if c.is_running then
    let c1 :=
      match c.last_update with
      | some last =>
        let elapsed := max 0 (now - last)
        let expected_frames : ℕ := (Rat.floor (elapsed * c.format.sample_rate)).toNat
        let drift' :=
          if frames > expected_frames then
            c.drift_accumulator + ((frames - expected_frames : ℕ) : ℚ)
          else if expected_frames > frames then
            c.drift_accumulator - ((expected_frames - frames : ℕ) : ℚ)
          else c.drift_accumulator
        let js := c.jitter_samples ++ [Nat.dist frames expected_frames]
        let js' := if js.length > 100 then js.drop 1 else js
        { c with drift_accumulator := drift', jitter_samples := js' }
      | none => c
    { c1 with frames_played := c.frames_played + frames, last_update := some now }
  else c

/-- `AudioClock::get_stats` (`clock.rs` lines 84–119), at wall time
`now`: `none` unless running; drift in ppm against the frames expected
for the elapsed wall time; jitter as the standard deviation of the
window rescaled to nanoseconds via the sample rate (the `avg` uses `u64`
integer division, as in the source). -/
def AudioClock.get_stats (c : AudioClock) (now : ℚ) : Option ClockStats :=
  match c.start_time with
  | none => none
  | some st =>
    let elapsed := max 0 (now - st)
    let total_frames : ℚ := (c.frames_played : ℚ)
    let expected_frames : ℚ := elapsed * c.format.sample_rate
    let drift_ppm :=
      if 0 < expected_frames then
        (total_frames - expected_frames) / expected_frames * 1000000
      else 0
    let jitter_ns : ℕ :=
      if c.jitter_samples.isEmpty then 0
      else
        let sum := c.jitter_samples.sum
        let avg := sum / c.jitter_samples.length
        let variance : ℚ :=
          ((c.jitter_samples.map fun x => ((x : ℚ) - (avg : ℚ)) ^ 2).sum) /
            (c.jitter_samples.length : ℚ)
        (Rat.floor (Rat.sqrt variance * 1000000000 / c.format.sample_rate)).toNat
    some ⟨drift_ppm, jitter_ns, 0⟩

/-- `AudioClock::reset` (`clock.rs` lines 121–129), at wall time `now`. -/
def AudioClock.reset (c : AudioClock) (now : ℚ) : AudioClock :=
  let c1 := { c with frames_played := 0, drift_accumulator := 0, jitter_samples := [] }
  if c1.is_running then
    { c1 with start_time := some now, last_update := some now }
  else c1

/-! ## audio/player.rs — Player (the Transport) -/

/-- `enum PlayerState`. -/
inductive PlayerState where
  | Stopped
  | Playing
  | Paused
  | Buffering
  | Error
deriving DecidableEq

/-- `enum PlayerEvent` (`Duration` payloads modelled as `ℚ` seconds). -/
inductive PlayerEvent where
  | StateChanged (state : PlayerState)
  | TrackChanged (path : String)
  | PositionChanged (position : ℚ)
  | BufferUnderrun
  | Error (message : String)
deriving DecidableEq

/-- The `AudioError` variants the embedded code can produce. -/
inductive AudioError where
  | InvalidState (message : String)
  | BitPerfectError (message : String)
  | OutputError (message : String)
deriving DecidableEq

instance {ε α : Type} [DecidableEq ε] [DecidableEq α] : DecidableEq (Except ε α) :=
  fun a b =>
    match a, b with
    | .error e, .error e' =>
      if h : e = e' then .isTrue (by rw [h])
      else .isFalse (by intro hc; injection hc; contradiction)
    | .error _, .ok _ => .isFalse (by intro hc; exact Except.noConfusion hc)
    | .ok _, .error _ => .isFalse (by intro hc; exact Except.noConfusion hc)
    | .ok x, .ok y =>
      if h : x = y then .isTrue (by rw [h])
      else .isFalse (by intro hc; injection hc; contradiction)

/-- The mutable state of `struct Player`: transport state and position.
Event publication is returned explicitly by each operation. -/
structure PlayerModel where
  state : PlayerState
  position : ℚ
deriving DecidableEq

/-- `Player::set_state`: change the state and publish `StateChanged`
only when the state actually changes. -/
def PlayerModel.set_state (p : PlayerModel) (new_state : PlayerState) :
    PlayerModel × List PlayerEvent :=
  if p.state ≠ new_state then
    ({ p with state := new_state }, [.StateChanged new_state])
  else (p, [])

/-- `Player::set_position`: store the position and publish
`PositionChanged`. -/
def PlayerModel.set_position (p : PlayerModel) (pos : ℚ) :
    PlayerModel × List PlayerEvent :=
  ({ p with position := pos }, [.PositionChanged pos])

/-- `Player::play` (`player.rs` lines 79–88). -/
def PlayerModel.play (p : PlayerModel) :
    Except AudioError (PlayerModel × List PlayerEvent) :=
  match p.state with
  | .Stopped => .ok (p.set_state .Playing)
  | .Paused => .ok (p.set_state .Playing)
  | .Playing => .ok (p, [])
  | _ => .error (.InvalidState "Cannot play in current state")

/-- `Player::pause` (`player.rs` lines 90–99). -/
def PlayerModel.pause (p : PlayerModel) :
    Except AudioError (PlayerModel × List PlayerEvent) :=
  match p.state with
  | .Playing => .ok (p.set_state .Paused)
  | .Paused => .ok (p, [])
  | _ => .error (.InvalidState "Cannot pause in current state")

/-- `Player::stop` (`player.rs` lines 101–111): Playing, Paused and
Buffering go to Stopped with position reset to zero; Stopped is a
no-op; any other state (i.e. Error) falls into the wildcard arm and
fails with `InvalidState`. -/
def PlayerModel.stop (p : PlayerModel) :
    Except AudioError (PlayerModel × List PlayerEvent) :=
  match p.state with
  | .Playing | .Paused | .Buffering =>
    let s := p.set_state .Stopped
    let q := s.1.set_position 0
    .ok (q.1, s.2 ++ q.2)
  | .Stopped => .ok (p, [])
  | _ => .error (.InvalidState "Cannot stop in current state")

/-- `Player::seek` (`player.rs` lines 113–116): unconditionally store
the position and succeed; the transport state is untouched. -/
def PlayerModel.seek (p : PlayerModel) (position : ℚ) :
    Except AudioError (PlayerModel × List PlayerEvent) :=
  .ok (p.set_position position)

/-! ## audio/engine.rs — engine_worker

The worker owns the player, decoder, pool, ring and clock.  The decoder
is modelled as an oracle `dec : AudioBuffer → ℕ × AudioBuffer`
(`Decoder::decode_next` fills the buffer and returns the frame count);
the decoder's own container position appears as `decoder_frame`
(`Decoder.current_frame`), which only `Decoder::seek`/`decode_next`
mutate.  Wall time is an explicit `now` argument where the clock is
involved.  Log statements have no state effect and are omitted. -/

structure EngineModel where
  player : PlayerModel
  decoder_frame : ℕ
  ringBuf : AudioRingBuffer
  pool : BufferPool
  clock : AudioClock
deriving DecidableEq

/-- The `EngineCommand::Play` arm (`engine.rs` lines 203–209): on
success start the clock; on failure only log. -/
def EngineModel.handlePlay (st : EngineModel) (now : ℚ) :
    EngineModel × List PlayerEvent :=
  match st.player.play with
  | .ok out => ({ st with player := out.1, clock := st.clock.start now }, out.2)
  | .error _ => (st, [])

/-- The `EngineCommand::Pause` arm (`engine.rs` lines 210–216). -/
def EngineModel.handlePause (st : EngineModel) :
    EngineModel × List PlayerEvent :=
  match st.player.pause with
  | .ok out => ({ st with player := out.1, clock := st.clock.stop }, out.2)
  | .error _ => (st, [])

/-- The `EngineCommand::Stop` arm (`engine.rs` lines 217–225): on
success stop and reset the clock and clear the ring; on failure only
log. -/
def EngineModel.handleStop (st : EngineModel) (now : ℚ) :
    EngineModel × List PlayerEvent :=
  match st.player.stop with
  | .ok out =>
    ({ st with player := out.1,
               clock := (st.clock.stop).reset now,
               ringBuf := st.ringBuf.clear }, out.2)
  | .error _ => (st, [])

/-- The `EngineCommand::Seek` arm (`engine.rs` lines 226–230): the only
effect is `player.seek(pos)`; the decoder, ring and clock are not
touched. -/
def EngineModel.handleSeek (st : EngineModel) (pos : ℚ) :
    EngineModel × List PlayerEvent :=
  match st.player.seek pos with
  | .ok out => ({ st with player := out.1 }, out.2)
  | .error _ => (st, [])

/-- The producer step of the worker loop (`engine.rs` lines 250–283),
run after command draining: when the player is Playing and the ring
fill ratio is below `target`, acquire a buffer, decode into it, write
its bytes to the ring when the decoder produced at least one frame, and
release the buffer.  No state transition and no event publication
happen on this path; the clock-drift block only logs. -/
def EngineModel.producerTick (st : EngineModel) (target : ℚ)
    (dec : AudioBuffer → ℕ × AudioBuffer) : EngineModel × List PlayerEvent :=
  if st.player.state = .Playing then
    let buffer_level : ℚ := (st.ringBuf.len : ℚ) / (st.ringBuf.capacity : ℚ)
    if buffer_level < target then
      match st.pool.acquire with
      | some out =>
        let frames_buf := dec out.1
        let ring' :=
          if 0 < frames_buf.1 then (st.ringBuf.write frames_buf.2.data).2
          else st.ringBuf
        ({ st with ringBuf := ring',
                   pool := out.2.release frames_buf.2 }, [])
      | none => (st, [])
    else (st, [])
  else (st, [])

/-! ## output/device.rs — devices and the DeviceManager

A cpal `SupportedStreamConfigRange` is reduced to the fields the
embedded code reads: channel count, sample-rate range and sample
format.  `DeviceInfo` keeps the fields `bitperfect.rs` consumes. -/

/-- cpal `SampleFormat` values reachable through
`AudioOutput::to_cpal_format`. -/
inductive CpalFormat where
  | U8
  | I16
  | I32
  | F32
  | F64
deriving DecidableEq

/-- `AudioOutput::to_cpal_format` (`backend.rs` lines 84–93). -/
def toCpalFormat : SampleFormat → CpalFormat
  | .U8 => .U8
  | .S16 => .I16
  | .S24 => .I32
  | .S32 => .I32
  | .F32 => .F32
  | .F64 => .F64

/-- One supported output configuration range of a device. -/
structure StreamConfigRange where
  channels : ℕ
  min_sample_rate : ℕ
  max_sample_rate : ℕ
  sample_format : CpalFormat
deriving DecidableEq

/-- The part of `struct DeviceInfo` the negotiator reads. -/
structure DeviceInfo where
  index : ℕ
  max_sample_rate : ℕ
deriving DecidableEq

/-- `struct AudioDevice`: its info plus the configuration ranges its
`supported_output_configs()` reports. -/
structure AudioDevice where
  info : DeviceInfo
  configs : List StreamConfigRange
deriving DecidableEq

/-- `AudioDevice::supports_format` (`device.rs` lines 67–79): some
config has the exact channel count and the sample rate within range.
The sample encoding is not checked. -/
def AudioDevice.supports_format (d : AudioDevice) (f : AudioFormat) : Bool :=
  d.configs.any fun c =>
    c.channels == f.channels &&
      decide (c.min_sample_rate ≤ f.sample_rate) &&
      decide (f.sample_rate ≤ c.max_sample_rate)

/-- `struct DeviceManager`: the enumerated devices and the index of the
default one. -/
structure DeviceManager where
  devices : List AudioDevice
  default_device : Option ℕ
deriving DecidableEq

/-- `DeviceManager::default_device` (`device.rs` lines 140–142). -/
def DeviceManager.defaultDevice (m : DeviceManager) : Option AudioDevice :=
  m.default_device.bind fun idx => m.devices[idx]?

/-- `DeviceManager::find_best_device_for_format` (`device.rs` lines
148–150): the FIRST device, in enumeration order, that supports the
format. -/
def DeviceManager.find_best_device_for_format (m : DeviceManager) (f : AudioFormat) :
    Option AudioDevice :=
  m.devices.find? fun d => d.supports_format f

/-- `AudioOutput::score_config` (`backend.rs` lines 63–82): +100 for an
exact channel match, else −10 per channel of mismatch; +50 when the
sample rate is in range; +30 when the cpal sample format matches. -/
def score_config (c : StreamConfigRange) (f : AudioFormat) : ℤ :=
  let score : ℤ := 0
  let score :=
    if c.channels = f.channels then score + 100
    else score - ((c.channels : ℤ) - (f.channels : ℤ)).natAbs * 10
  let score :=
    if c.min_sample_rate ≤ f.sample_rate ∧ f.sample_rate ≤ c.max_sample_rate then
      score + 50
    else score
  let score :=
    if c.sample_format = toCpalFormat f.sample_format then score + 30 else score
  score

/-! ## output/bitperfect.rs — BitPerfectManager -/

/-- `enum BitPerfectMode`. -/
inductive BitPerfectMode where
  | Disabled
  | Automatic
  | Exclusive
  | Passthrough
deriving DecidableEq

/-- `struct BitPerfectConfig`. -/
structure BitPerfectConfig where
  mode : BitPerfectMode
  prefer_integer : Bool
  auto_sample_rate : Bool
  allow_resampling : Bool
deriving DecidableEq

/-- `struct BitPerfectManager`. -/
structure BitPerfectManager where
  config : BitPerfectConfig
  device_manager : DeviceManager
  current_format : Option AudioFormat
  is_bitperfect : Bool
deriving DecidableEq

/-- `BitPerfectManager::validate_format` (`bitperfect.rs` lines 71–86):
false when the mode is Disabled; otherwise true exactly when the
DEFAULT device supports the format (both branches of the
`prefer_integer` test in the source return true, so the flag and the
encoding are irrelevant here).  The Rust function returns
`Ok(bool)` on every path, so it is modelled as `Bool`. -/
def BitPerfectManager.validate_format (m : BitPerfectManager) (f : AudioFormat) : Bool :=
  if m.config.mode = .Disabled then false
  else
    match m.device_manager.defaultDevice with
    | some d => if d.supports_format f then true else false
    | none => false

/-- `BitPerfectManager::prepare_format` (`bitperfect.rs` lines
103–130): record the source format, set `is_bitperfect` from
`validate_format`, and return the source format when bit-perfect;
otherwise fail when resampling is disallowed, else retarget the default
device's max sample rate (or fall back to the source format when there
is no default device). -/
def BitPerfectManager.prepare_format (m : BitPerfectManager) (source : AudioFormat) :
    BitPerfectManager × Except AudioError AudioFormat :=
  let m1 := { m with current_format := some source }
  let m2 := { m1 with is_bitperfect := m1.validate_format source }
  if m2.is_bitperfect then (m2, .ok source)
  else if !m2.config.allow_resampling then
    (m2, .error (.BitPerfectError "Cannot achieve bit-perfect output"))
  else
    match m2.device_manager.defaultDevice with
    | some d =>
      (m2, .ok ⟨d.info.max_sample_rate, source.channels, source.sample_format⟩)
    | none => (m2, .ok source)

/-! ## dsp/processor.rs — DSPChain

Samples are `f32`, modelled as `ℚ`.  A processor is its `process`
function (given the input slice and the pre-filled output slice) plus
its enabled flag and name.  `copy_from_slice` panics on a length
mismatch; the panic is modelled as an `Except.error`. -/

structure DSPProc where
  procFn : List ℚ → List ℚ → Except String (List ℚ)
  enabled : Bool
  name : String

/-- `struct DSPChain`. -/
structure DSPChain where
  processors : List DSPProc
  enabled : Bool

/-- `DSPChain::new`: empty processor list, enabled. -/
def DSPChain.new : DSPChain :=
  ⟨[], true⟩

/-- Model of `<[T]>::copy_from_slice dst src`: `dst` becomes a copy of
`src`; a length mismatch is the Rust panic. -/
def copyFromSlice (dst src : List ℚ) : Except String (List ℚ) :=
  if src.length = dst.length then .ok src
  else .error "copy_from_slice length mismatch"

/-- The processor loop of `DSPChain::process` (`processor.rs` lines
47–53): each enabled processor reads `buffer` and writes a clone of it
(`temp_buffer`), which becomes the next `buffer`; disabled processors
are skipped; the first error aborts. -/
def runProcessors : List DSPProc → List ℚ → Except String (List ℚ)
  | [], buffer => .ok buffer
  | p :: rest, buffer =>
    if p.enabled then
      match p.procFn buffer buffer with
      | .ok buf => runProcessors rest buf
      | .error e => .error e
    else runProcessors rest buffer

/-- `DSPChain::process` (`processor.rs` lines 39–58): when disabled,
copy the input to the output bytewise; when enabled, run the processors
in insertion order on a working copy of the input and copy the result
to the output. -/
def DSPChain.process (ch : DSPChain) (input output : List ℚ) : Except String (List ℚ) :=
  if !ch.enabled then copyFromSlice output input
  else
    match runProcessors ch.processors input with
    | .ok buffer => copyFromSlice output buffer
    | .error e => .error e

/-! ## output/backend.rs — the output callback

`AudioOutput::create_stream` (`backend.rs` lines 117–141) builds the
stream callback.  The closure captures ONLY the `volume` and
`is_playing` cells — no ring handle exists in `AudioOutput` — and, per
invocation, multiplies whatever samples are already in the device's
delivery buffer by the volume (when it is positive) or fills the buffer
with `T::MID` (the encoding's silence value) otherwise.  For `T = f32`,
`to_f32`/`from_sample` are the identity and `MID = 0.0`. -/

/-- The callback body for `T = f32`, samples over `ℚ`. -/
def audioCallbackF32 (vol : ℚ) (data : List ℚ) : List ℚ :=
  if 0 < vol then data.map fun s => s * vol
  else data.map fun _ => 0

/-- One callback invocation as a step on the pair (ring, delivery
buffer).  The ring appears so that its (non-)consumption is part of the
state: the closure has no access to it, so it is returned unchanged. -/
def outputCallbackStep (ring : AudioRingBuffer) (vol : ℚ) (data : List ℚ) :
    AudioRingBuffer × List ℚ :=
  (ring, audioCallbackF32 vol data)

/-- Modelled from the spec: the output-callback contract of §4.7 —
"reads from the consumer end of the ByteRing into the device's delivery
buffer, applies the current volume scalar, and fills the remainder with
the encoding's silence value if the ring is short".  Bytes read from
the ring are interpreted as samples, scaled by the volume, and the
remainder of a buffer of length `n` is silence (`0` for F32). -/
def specCallbackStep (ring : AudioRingBuffer) (vol : ℚ) (n : ℕ) :
    AudioRingBuffer × List ℚ :=
  let out := ring.read n
  (out.2, (out.1.map fun b => (b : ℚ) * vol) ++ List.replicate (n - out.1.length) 0)

/-! # Theorems -/

/-! ## ByteRing helper lemmas -/

/-- Closed form of the write loop: it accepts exactly
`min data.length free_space` bytes and appends them at the back. -/
theorem ring_write_eq (data : List ℕ) : ∀ r : AudioRingBuffer,
    r.write data =
      (min data.length (r.capacity - r.buffer.length),
       ⟨r.buffer ++ data.take (min data.length (r.capacity - r.buffer.length)),
        r.capacity⟩) := by
  induction data with
  | nil =>
    intro r
    simp [AudioRingBuffer.write]
  | cons b rest ih =>
    intro r
    rw [AudioRingBuffer.write]
    by_cases h : r.buffer.length < r.capacity
    · rw [if_pos h, ih ⟨r.buffer ++ [b], r.capacity⟩]
      simp only [List.length_append, List.length_cons, List.length_singleton]
      have hmin : min rest.length (r.capacity - (r.buffer.length + 1)) + 1 =
          min (rest.length + 1) (r.capacity - r.buffer.length) := by omega
      refine Prod.ext hmin ?_
      have htake : (b :: rest).take (min (rest.length + 1) (r.capacity - r.buffer.length)) =
          b :: rest.take (min rest.length (r.capacity - (r.buffer.length + 1))) := by
        have : min (rest.length + 1) (r.capacity - r.buffer.length) =
            (min rest.length (r.capacity - (r.buffer.length + 1))) + 1 := by omega
        rw [this, List.take_succ_cons]
      simp only [htake]
      simp
    · rw [if_neg h]
      have hc : r.capacity - r.buffer.length = 0 := by omega
      simp [hc]

/-- Closed form of the read loop: it pops exactly the first
`min n len` bytes from the front. -/
theorem ring_read_eq : ∀ (n : ℕ) (r : AudioRingBuffer),
    r.read n = (r.buffer.take n, ⟨r.buffer.drop n, r.capacity⟩) := by
  intro n
  induction n with
  | zero => intro r; simp [AudioRingBuffer.read]
  | succ m ih =>
    rintro ⟨buf, cap⟩
    cases buf with
    | nil => simp [AudioRingBuffer.read]
    | cons x xs =>
      simp [AudioRingBuffer.read, ih ⟨xs, cap⟩]

/-- Conservation along any interleaved call sequence: the initial ring
contents followed by the accepted bytes equal the read bytes followed
by the final ring contents. -/
theorem runOps_conservation : ∀ (ops : List RingOp) (r : AudioRingBuffer),
    r.buffer ++ (runOps r ops).1 = (runOps r ops).2.1 ++ (runOps r ops).2.2.buffer := by
  intro ops
  induction ops with
  | nil => intro r; simp [runOps]
  | cons op rest ih =>
    intro r
    match op with
    | RingOp.write data =>
      simp only [runOps, ring_write_eq data r]
      rw [← List.append_assoc]
      exact ih ⟨r.buffer ++ data.take (min data.length (r.capacity - r.buffer.length)),
        r.capacity⟩
    | RingOp.read n =>
      simp only [runOps, ring_read_eq n r]
      have h := ih ⟨r.buffer.drop n, r.capacity⟩
      calc r.buffer ++ (runOps ⟨r.buffer.drop n, r.capacity⟩ rest).1
          = r.buffer.take n ++ (r.buffer.drop n ++
              (runOps ⟨r.buffer.drop n, r.capacity⟩ rest).1) := by
            rw [← List.append_assoc, List.take_append_drop]
        _ = r.buffer.take n ++ ((runOps ⟨r.buffer.drop n, r.capacity⟩ rest).2.1 ++
              (runOps ⟨r.buffer.drop n, r.capacity⟩ rest).2.2.buffer) := by rw [h]
        _ = _ := by rw [← List.append_assoc]

/-! ## C2 -/

/-- C2, counterexample: on a fresh ring of capacity 2, the call
sequence write [1,2,3]; read 2; write [4]; read 1 returns the byte
stream [1, 2, 4], which is NOT a prefix of [1, 2, 3, 4], the
concatenation of the bytes submitted to the writes (the first write
accepts only [1, 2] and the unaccepted 3 is lost, yet later writes
succeed). -/
theorem c2_reads_not_initial_segment_of_submitted :
    ¬ ((runOps (AudioRingBuffer.new 2)
          [RingOp.write [1, 2, 3], RingOp.read 2, RingOp.write [4], RingOp.read 1]).2.1 <+:
        submittedBytes
          [RingOp.write [1, 2, 3], RingOp.read 2, RingOp.write [4], RingOp.read 1]) := by
  decide

/-- C2, amended: for every sequence of interleaved write and read calls
on a fresh ByteRing, the concatenation of bytes returned by the reads
is a prefix of the concatenation of bytes ACCEPTED by the writes (each
write accepts the prefix of its argument that fits); and on a fresh
ring, writing any `data` with `data.length ≤ capacity` and then reading
`data.length` bytes yields `data` back. -/
theorem c2_reader_stream_initial_segment :
    (∀ (C : ℕ) (ops : List RingOp),
        (runOps (AudioRingBuffer.new C) ops).2.1 <+: (runOps (AudioRingBuffer.new C) ops).1) ∧
      ∀ (C : ℕ) (data : List ℕ), data.length ≤ C →
        (((AudioRingBuffer.new C).write data).2.read data.length).1 = data := by
  constructor
  · intro C ops
    have h := runOps_conservation ops (AudioRingBuffer.new C)
    simp only [AudioRingBuffer.new, List.nil_append] at h
    exact ⟨(runOps (AudioRingBuffer.new C) ops).2.2.buffer, h.symm⟩
  · intro C data h
    rw [ring_write_eq data (AudioRingBuffer.new C)]
    simp only [AudioRingBuffer.new, List.length_nil, Nat.sub_zero,
      Nat.min_eq_left h, List.take_length, List.nil_append]
    rw [ring_read_eq]
    simp

/-- C2, witness: round trip of [7, 8] through a fresh ring of
capacity 3. -/
theorem c2_round_trip_concrete :
    (((AudioRingBuffer.new 3).write [7, 8]).2.read 2).1 = [7, 8] := by
  have h := c2_reader_stream_initial_segment.2 3 [7, 8] (by decide)
  simpa using h

/-! ## C10 -/

/-- C10: on any well-formed pool, an `acquire` that returns a buffer
followed by a `release` of that buffer restores `available_count` to
its prior value but increases `total_count` by one: `acquire` leaves a
zero-frame placeholder in the backing vector and `release` appends a
new entry, so the vector grows by one entry per cycle and
`total_count` is not bounded by the constructed pool size. -/
theorem c10_acquire_release_grows_pool (p : BufferPool) (out : AudioBuffer × BufferPool)
    (hwf : p.WF) (hacq : p.acquire = some out) :
    (out.2.release out.1).available_count = p.available_count ∧
      (out.2.release out.1).total_count = p.total_count + 1 := by
  unfold BufferPool.acquire at hacq
  match hlast : p.free_buffers.getLast? with
  | none => rw [hlast] at hacq; exact absurd hacq (by simp)
  | some i =>
    rw [hlast] at hacq
    dsimp only at hacq
    have hne : p.free_buffers ≠ [] := by
      intro h
      rw [h] at hlast
      simp at hlast
    have hmem : i ∈ p.free_buffers := by
      have h1 : ∃ h, i = p.free_buffers.getLast h :=
        List.mem_getLast?_eq_getLast (by rw [Option.mem_def, hlast])
      obtain ⟨h, rfl⟩ := h1
      exact List.getLast_mem h
    obtain ⟨hlt, hframes⟩ := hwf i hmem
    match hget : p.buffers[i]? with
    | none =>
      rw [hget] at hacq
      exact absurd hacq (by simp)
    | some buf =>
      rw [hget] at hacq
      have hout : out = (buf, ⟨p.buffers.set i (AudioBuffer.new p.format 0),
          p.free_buffers.dropLast, p.format, p.buffer_size_frames⟩) := by
        injection hacq with h
        exact h.symm
      have hbf : buf.frames = p.buffer_size_frames := by
        rw [hget] at hframes
        simpa using hframes
      subst hout
      have hpos : 0 < p.free_buffers.length := List.length_pos.mpr hne
      simp [BufferPool.release, hbf, BufferPool.available_count, BufferPool.total_count]
      omega

/-- C10, witness: a pool of size 2 with one-frame buffers; after one
acquire/release cycle the available count is back to 2 while the total
count has grown to 3. -/
theorem c10_cycle_concrete :
    ((⟨[AudioBuffer.new ⟨8, 1, .U8⟩ 1, AudioBuffer.new ⟨8, 1, .U8⟩ 0], [0],
        ⟨8, 1, .U8⟩, 1⟩ : BufferPool).release
      (AudioBuffer.new ⟨8, 1, .U8⟩ 1)).available_count = 2 ∧
    ((⟨[AudioBuffer.new ⟨8, 1, .U8⟩ 1, AudioBuffer.new ⟨8, 1, .U8⟩ 0], [0],
        ⟨8, 1, .U8⟩, 1⟩ : BufferPool).release
      (AudioBuffer.new ⟨8, 1, .U8⟩ 1)).total_count = 3 := by
  have h := c10_acquire_release_grows_pool (BufferPool.new ⟨8, 1, .U8⟩ 1 2)
    (AudioBuffer.new ⟨8, 1, .U8⟩ 1,
      ⟨[AudioBuffer.new ⟨8, 1, .U8⟩ 1, AudioBuffer.new ⟨8, 1, .U8⟩ 0], [0], ⟨8, 1, .U8⟩, 1⟩)
    (by decide) (by decide)
  simpa using h

/-! ## C9 -/

/-- C9: for equal-length input and output slices, `DSPChain::process`
with an empty processor list, or with the chain disabled, copies the
input to the output and succeeds. -/
theorem c9_empty_or_disabled_chain_copies (ch : DSPChain) (input output : List ℚ)
    (hlen : input.length = output.length)
    (hcase : ch.processors = [] ∨ ch.enabled = false) :
    ch.process input output = .ok input := by
  unfold DSPChain.process
  cases henabled : ch.enabled with
  | false =>
    simp only [Bool.not_false, if_pos]
    unfold copyFromSlice
    rw [if_pos hlen]
  | true =>
    have hproc : ch.processors = [] := by
      cases hcase with
      | inl h => exact h
      | inr h => rw [henabled] at h; exact absurd h (by simp)
    simp only [Bool.not_true, Bool.false_eq_true, if_false, hproc, runProcessors]
    unfold copyFromSlice
    rw [if_pos hlen]

/-- C9, witness: the fresh (empty, enabled) chain passes [1, 2]
through unchanged. -/
theorem c9_fresh_chain_concrete :
    DSPChain.new.process [1, 2] [0, 0] = .ok [1, 2] :=
  c9_empty_or_disabled_chain_copies DSPChain.new [1, 2] [0, 0] rfl (Or.inl rfl)

/-! ## C6 -/

/-- C6, counterexample: a Stop issued while the Transport is in the
Error state does NOT succeed — `Player::stop` falls into the wildcard
match arm and fails with `InvalidState`, leaving the state Error. -/
theorem c6_stop_in_error_fails :
    PlayerModel.stop ⟨.Error, 3⟩ =
        .error (.InvalidState "Cannot stop in current state") ∧
      ∀ out, PlayerModel.stop ⟨.Error, 3⟩ ≠ .ok out := by
  refine ⟨rfl, ?_⟩
  intro out h
  exact Except.noConfusion h

/-- C6, amended: Stop succeeds from Playing, Paused and Buffering
(transitioning to Stopped with position reset to zero) and from
Stopped (as a no-op); from Error it fails with `InvalidState` and the
Transport stays in Error — in particular the engine's Stop handler
leaves the whole engine state unchanged and publishes nothing when the
player is in Error. -/
theorem c6_stop_transitions (pos : ℚ) :
    PlayerModel.stop ⟨.Playing, pos⟩ =
        .ok (⟨.Stopped, 0⟩, [.StateChanged .Stopped, .PositionChanged 0]) ∧
      PlayerModel.stop ⟨.Paused, pos⟩ =
        .ok (⟨.Stopped, 0⟩, [.StateChanged .Stopped, .PositionChanged 0]) ∧
      PlayerModel.stop ⟨.Buffering, pos⟩ =
        .ok (⟨.Stopped, 0⟩, [.StateChanged .Stopped, .PositionChanged 0]) ∧
      PlayerModel.stop ⟨.Stopped, pos⟩ = .ok (⟨.Stopped, pos⟩, []) ∧
      PlayerModel.stop ⟨.Error, pos⟩ =
        .error (.InvalidState "Cannot stop in current state") ∧
      ∀ (st : EngineModel) (now : ℚ), st.player.state = .Error →
        st.handleStop now = (st, []) := by
  refine ⟨rfl, rfl, rfl, rfl, rfl, ?_⟩
  intro st now h
  have hstop : st.player.stop = .error (.InvalidState "Cannot stop in current state") := by
    rcases hp : st.player with ⟨s, q⟩
    rw [hp] at h
    have h2 : s = PlayerState.Error := h
    subst h2
    rfl
  simp [EngineModel.handleStop, hstop]

/-- C6, witness: the engine's Stop handler on a concrete Error-state
engine leaves everything unchanged. -/
theorem c6_stop_in_error_concrete :
    EngineModel.handleStop
        ⟨⟨.Error, 0⟩, 0, AudioRingBuffer.new 4, BufferPool.new AudioFormat.default 1 1,
          AudioClock.new AudioFormat.default⟩ 0 =
      (⟨⟨.Error, 0⟩, 0, AudioRingBuffer.new 4, BufferPool.new AudioFormat.default 1 1,
          AudioClock.new AudioFormat.default⟩, []) :=
  (c6_stop_transitions 0).2.2.2.2.2
    ⟨⟨.Error, 0⟩, 0, AudioRingBuffer.new 4, BufferPool.new AudioFormat.default 1 1,
      AudioClock.new AudioFormat.default⟩ 0 rfl

/-! ## C8 -/

/-- `Rat.sqrt 0 = 0` (`f64::sqrt` is exact at zero). -/
theorem rat_sqrt_zero : Rat.sqrt 0 = 0 := by
  simp

/-- C8: immediately after `start()` (stats read at the start
timestamp, before any wall time elapses) and with no update calls,
`get_stats` reports `drift_ppm = 0`; and after exactly one `update`
call — at any later timestamp and with any frame count — `get_stats`
reports `jitter_ns = 0` (the single-element jitter window has zero
variance). -/
theorem c8_fresh_clock_stats (fmt : AudioFormat) (t0 t1 t2 : ℚ) (frames : ℕ) :
    (((AudioClock.new fmt).start t0).get_stats t0).map ClockStats.drift_ppm = some 0 ∧
      ((((AudioClock.new fmt).start t0).update t1 frames).get_stats t2).map
          ClockStats.jitter_ns = some 0 := by
  constructor
  · simp [AudioClock.new, AudioClock.start, AudioClock.get_stats]
  · simp only [AudioClock.new, AudioClock.start, AudioClock.update,
      AudioClock.is_running, Option.isSome_some, if_true]
    simp only [AudioClock.get_stats, List.nil_append]
    have hvar : ∀ d : ℕ,
        ((([d] : List ℕ).map fun x => ((x : ℚ) - ((d / 1 : ℕ) : ℚ)) ^ 2).sum) /
            (([d] : List ℕ).length : ℚ) = 0 := by
      intro d
      simp
    simp [hvar, rat_sqrt_zero]
    decide

/-! ## C3 -/

/-- C3, counterexample: an integer-encoded 44100 Hz stereo S16 format,
a manager in Automatic mode (resampling disallowed) whose device list
contains a device (index 1) that supports the format — but whose
DEFAULT device (index 0) does not.  `prepare_format` fails with
`BitPerfectError` and leaves `is_bitperfect = false`, because
`validate_format` consults only the default device, never the other
devices. -/
theorem c3_nondefault_support_not_enough :
    (⟨44100, 2, .S16⟩ : AudioFormat).sample_format.is_integer = true ∧
      (⟨⟨.Automatic, true, true, false⟩,
          ⟨[⟨⟨0, 48000⟩, [⟨2, 48000, 48000, .I16⟩]⟩,
            ⟨⟨1, 44100⟩, [⟨2, 44100, 44100, .I16⟩]⟩], some 0⟩,
          none, false⟩ : BitPerfectManager).config.mode ≠ .Disabled ∧
      (∃ d ∈ (⟨⟨.Automatic, true, true, false⟩,
          ⟨[⟨⟨0, 48000⟩, [⟨2, 48000, 48000, .I16⟩]⟩,
            ⟨⟨1, 44100⟩, [⟨2, 44100, 44100, .I16⟩]⟩], some 0⟩,
          none, false⟩ : BitPerfectManager).device_manager.devices,
        d.supports_format ⟨44100, 2, .S16⟩ = true) ∧
      ((⟨⟨.Automatic, true, true, false⟩,
          ⟨[⟨⟨0, 48000⟩, [⟨2, 48000, 48000, .I16⟩]⟩,
            ⟨⟨1, 44100⟩, [⟨2, 44100, 44100, .I16⟩]⟩], some 0⟩,
          none, false⟩ : BitPerfectManager).prepare_format ⟨44100, 2, .S16⟩).2 =
        .error (.BitPerfectError "Cannot achieve bit-perfect output") ∧
      ((⟨⟨.Automatic, true, true, false⟩,
          ⟨[⟨⟨0, 48000⟩, [⟨2, 48000, 48000, .I16⟩]⟩,
            ⟨⟨1, 44100⟩, [⟨2, 44100, 44100, .I16⟩]⟩], some 0⟩,
          none, false⟩ : BitPerfectManager).prepare_format ⟨44100, 2, .S16⟩).1.is_bitperfect
        = false := by
  decide

/-- C3, amended: for every integer-encoded AudioFormat, when the mode
is not Disabled and the manager's DEFAULT device is reported as
supporting that format, `prepare_format` returns the identical format
and marks `is_bitperfect = true`. -/
theorem c3_default_device_support_bitperfect (m : BitPerfectManager) (f : AudioFormat)
    (hmode : m.config.mode ≠ .Disabled)
    (_hint : f.sample_format.is_integer = true)
    (hdev : ∃ d, m.device_manager.defaultDevice = some d ∧ d.supports_format f = true) :
    (m.prepare_format f).2 = .ok f ∧ (m.prepare_format f).1.is_bitperfect = true := by
  obtain ⟨d, hd, hsup⟩ := hdev
  have hval : ({ m with current_format := some f } : BitPerfectManager).validate_format f
      = true := by
    unfold BitPerfectManager.validate_format
    dsimp only
    rw [if_neg hmode, hd]
    simp [hsup]
  unfold BitPerfectManager.prepare_format
  simp [hval]

/-- C3, witness: a single default device whose one config is exactly
44100 Hz stereo I16; preparing 44100/2/S16 is bit-perfect. -/
theorem c3_bitperfect_concrete :
    ((⟨⟨.Automatic, true, true, false⟩,
        ⟨[⟨⟨0, 44100⟩, [⟨2, 44100, 44100, .I16⟩]⟩], some 0⟩,
        none, false⟩ : BitPerfectManager).prepare_format ⟨44100, 2, .S16⟩).2 =
        .ok ⟨44100, 2, .S16⟩ ∧
      ((⟨⟨.Automatic, true, true, false⟩,
          ⟨[⟨⟨0, 44100⟩, [⟨2, 44100, 44100, .I16⟩]⟩], some 0⟩,
          none, false⟩ : BitPerfectManager).prepare_format
        ⟨44100, 2, .S16⟩).1.is_bitperfect = true :=
  c3_default_device_support_bitperfect
    ⟨⟨.Automatic, true, true, false⟩,
      ⟨[⟨⟨0, 44100⟩, [⟨2, 44100, 44100, .I16⟩]⟩], some 0⟩, none, false⟩
    ⟨44100, 2, .S16⟩ (by decide) (by decide)
    ⟨⟨⟨0, 44100⟩, [⟨2, 44100, 44100, .I16⟩]⟩, by decide, by decide⟩

/-! ## C7 -/

/-- C7, counterexample: two devices that both support 44100/2/S16 —
device 0 via an F32 config (score 100 + 50 = 150), device 1 via an I16
config (score 100 + 50 + 30 = 180).  `find_best_device_for_format`
returns device 0, the first supporting device in enumeration order,
NOT the higher-scoring device 1. -/
theorem c7_first_supporting_device_wins :
    (⟨⟨0, 44100⟩, [⟨2, 44100, 44100, .F32⟩]⟩ : AudioDevice).supports_format
        ⟨44100, 2, .S16⟩ = true ∧
      (⟨⟨1, 44100⟩, [⟨2, 44100, 44100, .I16⟩]⟩ : AudioDevice).supports_format
        ⟨44100, 2, .S16⟩ = true ∧
      score_config ⟨2, 44100, 44100, .I16⟩ ⟨44100, 2, .S16⟩ >
        score_config ⟨2, 44100, 44100, .F32⟩ ⟨44100, 2, .S16⟩ ∧
      (⟨[⟨⟨0, 44100⟩, [⟨2, 44100, 44100, .F32⟩]⟩,
          ⟨⟨1, 44100⟩, [⟨2, 44100, 44100, .I16⟩]⟩], some 0⟩ :
            DeviceManager).find_best_device_for_format ⟨44100, 2, .S16⟩ =
        some ⟨⟨0, 44100⟩, [⟨2, 44100, 44100, .F32⟩]⟩ ∧
      (⟨⟨0, 44100⟩, [⟨2, 44100, 44100, .F32⟩]⟩ : AudioDevice) ≠
        ⟨⟨1, 44100⟩, [⟨2, 44100, 44100, .I16⟩]⟩ := by
  decide

/-- C7, amended: `find_best_device_for_format` performs no scoring at
all — it returns the first device in enumeration order that supports
the format (exact channel count and sample rate in range; encoding is
ignored), and returns nothing only when no device supports it.  The
scoring described by the claim (+100 exact channel match, −10 per
channel of mismatch otherwise, +50 rate in range, +30 encoding match)
is computed by `AudioOutput::score_config` and used only to choose a
stream config when opening a single device. -/
theorem c7_find_first_and_score_closed_form :
    (∀ (m : DeviceManager) (f : AudioFormat) (d : AudioDevice),
        m.find_best_device_for_format f = some d ↔
          d.supports_format f = true ∧
            ∃ i, ∃ h : i < m.devices.length, m.devices[i] = d ∧
              ∀ j, (hj : j < i) → (m.devices[j]).supports_format f = false) ∧
      ∀ (c : StreamConfigRange) (f : AudioFormat),
        score_config c f =
          (if c.channels = f.channels then 100
            else -(10 * |(c.channels : ℤ) - (f.channels : ℤ)|)) +
            (if c.min_sample_rate ≤ f.sample_rate ∧ f.sample_rate ≤ c.max_sample_rate
              then 50 else 0) +
            (if c.sample_format = toCpalFormat f.sample_format then 30 else 0) := by
  constructor
  · intro m f d
    unfold DeviceManager.find_best_device_for_format
    rw [List.find?_eq_some_iff_getElem]
    simp
  · intro c f
    unfold score_config
    by_cases h1 : c.channels = f.channels <;>
      by_cases h2 : c.min_sample_rate ≤ f.sample_rate ∧ f.sample_rate ≤ c.max_sample_rate <;>
      by_cases h3 : c.sample_format = toCpalFormat f.sample_format <;>
      simp [h1, h2, h3] <;> ring

/-- C7, witness: on a one-device manager the characterization yields
the device. -/
theorem c7_find_concrete :
    (⟨[⟨⟨0, 44100⟩, [⟨2, 44100, 44100, .I16⟩]⟩], some 0⟩ :
        DeviceManager).find_best_device_for_format ⟨44100, 2, .S16⟩ =
      some ⟨⟨0, 44100⟩, [⟨2, 44100, 44100, .I16⟩]⟩ :=
  (c7_find_first_and_score_closed_form.1
      ⟨[⟨⟨0, 44100⟩, [⟨2, 44100, 44100, .I16⟩]⟩], some 0⟩ ⟨44100, 2, .S16⟩
      ⟨⟨0, 44100⟩, [⟨2, 44100, 44100, .I16⟩]⟩).mpr
    ⟨by decide, 0, by decide, by decide,
      fun j hj => absurd hj (Nat.not_lt_zero j)⟩

/-! ## C1 -/

/-- C1: the output callback never touches the ByteRing.  With the ring
holding bytes [1, 2, 3], volume 1 and a two-sample delivery buffer
whose stale contents are [5, 6], the callback built by
`AudioOutput::create_stream` returns the ring unchanged and re-emits
the stale buffer contents scaled by the volume; the behaviour the
claim (spec §4.7) requires would drain [1, 2] from the ring into the
buffer.  The two delivery buffers differ, so the claim fails on the
code: the producer fills the ring but no callback ever consumes it. -/
theorem c1_callback_never_reads_ring :
    outputCallbackStep ⟨[1, 2, 3], 8⟩ 1 [5, 6] = (⟨[1, 2, 3], 8⟩, [5, 6]) ∧
      specCallbackStep ⟨[1, 2, 3], 8⟩ 1 2 = (⟨[3], 8⟩, [1, 2]) ∧
      (outputCallbackStep ⟨[1, 2, 3], 8⟩ 1 [5, 6]).2 ≠
        (specCallbackStep ⟨[1, 2, 3], 8⟩ 1 2).2 := by
  refine ⟨?_, ?_, ?_⟩ <;>
    norm_num [outputCallbackStep, audioCallbackF32, specCallbackStep, ring_read_eq]

/-! ## C4 -/

/-- C4: a producer-loop tick in which the Transport is Playing, the
ring is below the target level and `decode_next` returns 0 frames
(end of stream) leaves the Transport in Playing and publishes no event
whatsoever — the worker neither transitions to Stopped nor publishes a
TrackChanged or end-of-stream notification; it merely skips the ring
write and releases the buffer. -/
theorem c4_decode_zero_keeps_playing :
    (EngineModel.producerTick
        ⟨⟨.Playing, 0⟩, 0, AudioRingBuffer.new 8, BufferPool.new AudioFormat.default 1 1,
          AudioClock.new AudioFormat.default⟩
        (1 / 2) (fun b => (0, b))).1.player.state = .Playing ∧
      (EngineModel.producerTick
          ⟨⟨.Playing, 0⟩, 0, AudioRingBuffer.new 8, BufferPool.new AudioFormat.default 1 1,
            AudioClock.new AudioFormat.default⟩
          (1 / 2) (fun b => (0, b))).2 = [] := by
  have hacq : (BufferPool.new AudioFormat.default 1 1).acquire =
      some (AudioBuffer.new AudioFormat.default 1,
        ⟨[AudioBuffer.new AudioFormat.default 0], [], AudioFormat.default, 1⟩) := by
    decide
  constructor <;>
    norm_num [EngineModel.producerTick, AudioRingBuffer.new, AudioRingBuffer.len, hacq]

/-! ## C5 -/

/-- C5: a Seek command processed while Playing leaves the state
unchanged (as the claim says) but performs NONE of the claimed side
effects: with the ring holding [1, 2, 3], the clock at 5 frames played
and the decoder at frame 7, the engine's Seek arm only stores the
position and publishes PositionChanged — the ring keeps its bytes (not
cleared), the clock keeps its counters (not reset) and the decoder
position is untouched (`Decoder::seek` is never invoked; it is dead
code in the engine). -/
theorem c5_seek_has_no_pipeline_effects :
    (EngineModel.handleSeek
        ⟨⟨.Playing, 0⟩, 7, ⟨[1, 2, 3], 8⟩, BufferPool.new AudioFormat.default 1 1,
          { (AudioClock.new AudioFormat.default).start 0 with frames_played := 5 }⟩
        10).1.player.state = .Playing ∧
      (EngineModel.handleSeek
          ⟨⟨.Playing, 0⟩, 7, ⟨[1, 2, 3], 8⟩, BufferPool.new AudioFormat.default 1 1,
            { (AudioClock.new AudioFormat.default).start 0 with frames_played := 5 }⟩
          10).1.player.position = 10 ∧
      (EngineModel.handleSeek
          ⟨⟨.Playing, 0⟩, 7, ⟨[1, 2, 3], 8⟩, BufferPool.new AudioFormat.default 1 1,
            { (AudioClock.new AudioFormat.default).start 0 with frames_played := 5 }⟩
          10).2 = [.PositionChanged 10] ∧
      (EngineModel.handleSeek
          ⟨⟨.Playing, 0⟩, 7, ⟨[1, 2, 3], 8⟩, BufferPool.new AudioFormat.default 1 1,
            { (AudioClock.new AudioFormat.default).start 0 with frames_played := 5 }⟩
          10).1.ringBuf = ⟨[1, 2, 3], 8⟩ ∧
      (EngineModel.handleSeek
          ⟨⟨.Playing, 0⟩, 7, ⟨[1, 2, 3], 8⟩, BufferPool.new AudioFormat.default 1 1,
            { (AudioClock.new AudioFormat.default).start 0 with frames_played := 5 }⟩
          10).1.clock.frames_played = 5 ∧
      (EngineModel.handleSeek
          ⟨⟨.Playing, 0⟩, 7, ⟨[1, 2, 3], 8⟩, BufferPool.new AudioFormat.default 1 1,
            { (AudioClock.new AudioFormat.default).start 0 with frames_played := 5 }⟩
          10).1.decoder_frame = 7 := by
  decide

end Roobar
